import Mathlib

/-
  Verification development for the tunnelcast repository.

  Shallow embedding of src/engine.rs, src/gui.rs and the GUI input handler of
  src/main.rs.  Rust HashMaps are embedded as functions into Option, Vec as
  List (Vec::pop takes the last element, Vec::remove shifts, Vec::push and
  Vec::append add at the tail).  A Rust panic (expect / unwrap / slice index
  out of bounds / explicit panic) is embedded as the value none of an Option
  result: the operation aborts and produces no state.  The random number
  generator is external to the repository, so random values (the shuffle
  permutation of shuffle_deck, the u32 produced by gen_id) are passed in as
  parameters.
-/

namespace Tunnelcast

/-- CardId from engine.rs: the closed enumeration of card definitions. -/
inductive CardId where
  | Shields
  | Phasers
deriving DecidableEq, Repr

/-- Attribute from engine.rs: the closed enumeration of entity attributes. -/
inductive Attribute where
  | Shields
  | Hull
deriving DecidableEq, Repr

/-- EntityId from engine.rs is u32.  Ids are only generated and compared for
equality (no arithmetic is performed on them), so Nat is an adequate carrier;
every u32 value embeds into it. -/
abbrev EntityId := Nat

/-- Action from engine.rs: the pending action consumed by tick. -/
inductive Action where
  | None
  | Draw
  | PlayCard (target : EntityId) (card_idx : Int)
  | BeginTurn
  | EndTurn
deriving DecidableEq, Repr

/-- State from engine.rs: HashMap from Attribute to i32, embedded as a function
into Option Int.  A key maps to none exactly when it is absent from the map. -/
def State := Attribute → Option Int

/-- The empty State (State::new in the source). -/
def State.empty : State := fun _ => none

/-- HashMap::insert on a State. -/
def State.insert (s : State) (k : Attribute) (v : Int) : State :=
  fun a => if a = k then some v else s a

/-- Pointwise merge of a delta into a state map.  This is the single loop shape
the source uses twice: the accumulator merge in the PlayCard arm of tick
(for each key of the effect output: add to the existing accumulator entry, or
insert the value when the key is absent) and the mutation loop of apply_effect
(entry(k).or_insert(0) += v).  Both treat an absent key as 0 before adding,
and the result is independent of the HashMap iteration order because addition
is commutative, so the pointwise function below is the exact semantics. -/
def State.addDelta (s : State) (delta : State) : State :=
  fun a =>
    match delta a with
    | none => s a
    | some v => some ((s a).getD 0 + v)

/-- Entity from engine.rs.  The Player and Enemy structs both hold exactly one
field, a State, and the Entity trait exposes exactly that State through
get_state; the role tag carries no data and no behavior, so one structure
embeds both. -/
structure Entity where
  state : State

/-- The Effect trait of engine.rs has exactly two implementations,
IncreaseShields and DamageHull; the trait objects are embedded as the closed
enumeration of those implementations. -/
inductive Effect where
  | IncreaseShields
  | DamageHull
deriving DecidableEq, Repr

/-- Card from engine.rs: immutable id, display name and ordered effects. -/
structure Card where
  id : CardId
  name : String
  effects : List Effect

/-- CardCollection from engine.rs: HashMap from CardId to Card. -/
structure CardCollection where
  inner : CardId → Option Card

/-- CardCollection::get. -/
def CardCollection.get (c : CardCollection) (card_id : CardId) : Option Card :=
  c.inner card_id

/-- GameState from engine.rs. -/
@[ext]
structure GameState where
  cards : CardCollection
  draw : List CardId
  hand : List CardId
  discard : List CardId
  action : Action
  entities : List EntityId
  entity_state : EntityId → Option Entity

/-- Effect::calculate for the two implementations in engine.rs: both ignore the
game snapshot and the target and return a singleton delta. -/
def Effect.calculate : Effect → GameState → EntityId → State
  | .IncreaseShields, _, _ => State.empty.insert Attribute.Shields 1
  | .DamageHull, _, _ => State.empty.insert Attribute.Hull (-1)

/-- StateChange from engine.rs: a target id paired with a delta map. -/
def StateChange := EntityId × State

/-- GameState::add_entity.  gen_id in the source draws an unchecked random u32
from the external RNG; that draw is the gen parameter here.  The new id is
pushed onto the live list and the entity inserted into the map, with no
uniqueness check of any kind. -/
def GameState.add_entity (g : GameState) (gen : EntityId) (entity : Entity) :
    GameState × EntityId :=
  ({ g with
      entities := g.entities ++ [gen],
      entity_state := fun e => if e = gen then some entity else g.entity_state e },
   gen)

/-- GameState::remove_entity.  The source takes the position of the first
occurrence of the id in the live list (panicking via expect when the id is
absent, embedded as none) and calls Vec::remove at that index, which is
exactly erasure of the first occurrence; the entity is also removed from the
map. -/
def GameState.remove_entity (g : GameState) (entity_id : EntityId) :
    Option GameState :=
  if entity_id ∈ g.entities then
    some { g with
      entities := g.entities.erase entity_id,
      entity_state := fun e => if e = entity_id then none else g.entity_state e }
  else none

/-- GameState::apply_effect.  Looks up the target (expect panic when absent,
embedded as none), folds the delta into its state treating absent keys as 0,
then unwraps the Hull key of the resulting state: when Hull is absent this
unwrap panics (none); when Hull is present and at most 0 the target is removed
via remove_entity; otherwise the mutated state stands. -/
def GameState.apply_effect (g : GameState) (state_change : StateChange) :
    Option GameState :=
  match g.entity_state state_change.1 with
  | none => none
  | some ent =>
    let newState := ent.state.addDelta state_change.2
    let g1 : GameState :=
      { g with
        entity_state := fun e =>
          if e = state_change.1 then some { state := newState }
          else g.entity_state e }
    match newState Attribute.Hull with
    | none => none
    | some h => if h ≤ 0 then g1.remove_entity state_change.1 else some g1

/-- The usize cast applied to the i32 hand index in the PlayCard arm
(card_idx as usize on a 64-bit target): two-complement value modulo 2 ^ 64,
so a negative index becomes an astronomically large one. -/
def castUsize (i : Int) : Nat := (i % (2 : Int) ^ 64).toNat

/-- draw_hand from engine.rs: pop up to count cards off the tail of the draw
pile into the hand.  The count parameter is an i8 in the source and the loop
runs 0..count times (zero times for a non-positive count), so Nat carries it.
There is no reshuffle in this function. -/
def draw_hand (g : GameState) (count : Nat) : GameState :=
  match count with
  | 0 => g
  | n + 1 =>
    match g.draw.getLast? with
    | none => draw_hand g n
    | some card_id =>
      draw_hand { g with draw := g.draw.dropLast, hand := g.hand ++ [card_id] } n

/-- discard_hand from engine.rs: append the whole hand, in order, onto the
discard pile and leave the hand empty. -/
def discard_hand (g : GameState) : GameState :=
  { g with discard := g.discard ++ g.hand, hand := [] }

/-- The body of the Action::Draw arm of tick (the drawOne pile operation of
the spec).  shuffle is the external uniform permutation routine applied by
shuffle_deck; it is a parameter because the RNG is external.  When the draw
pile is empty the shuffled discard pile is appended into it (emptying the
discard pile), then Vec::pop moves the last element of the draw pile, if any,
into the hand. -/
def drawOne (shuffle : List CardId → List CardId) (g : GameState) : GameState :=
  let g1 :=
    if g.draw.length = 0 then
      { g with draw := g.draw ++ shuffle g.discard, discard := [] }
    else g
  match g1.draw.getLast? with
  | none => g1
  | some card => { g1 with draw := g1.draw.dropLast, hand := g1.hand ++ [card] }

/-- tick from engine.rs.  The source returns the mutated state; a panic along
the way (hand index out of bounds, missing card in the catalog, missing
entity, absent Hull key) aborts the process and is embedded as none.  In the
PlayCard arm the effects are evaluated in declaration order against g, the
snapshot taken before any mutation, and merged into one accumulator; the card
is then moved to the tail of the discard pile and removed from the hand, and
only then is apply_effect called with the accumulated delta. -/
def tick (shuffle : List CardId → List CardId) (g : GameState) :
    Option GameState :=
  match g.action with
  | Action.None => some g
  | Action.Draw => some (drawOne shuffle g)
  | Action.PlayCard target_ent_idx card_idx =>
    match g.hand.get? (castUsize card_idx) with
    | none => none
    | some card_id =>
      match g.cards.get card_id with
      | none => none
      | some card =>
        let accum := card.effects.foldl
          (fun acc fx => acc.addDelta (fx.calculate g target_ent_idx)) State.empty
        let g1 := { g with
          discard := g.discard ++ [card_id],
          hand := g.hand.eraseIdx (castUsize card_idx) }
        g1.apply_effect (target_ent_idx, accum)
  | Action.BeginTurn => some (draw_hand g 4)
  | Action.EndTurn => some (discard_hand g)

/-- Modelled from the spec: the TargetPolicy enumeration (SelfOnly and
SingleOpponent in the spec), named Target with variants Player and Single at
its use sites in gui.rs and main.rs; the enum declaration itself is in a
draft of engine.rs that is not under src. -/
inductive Target where
  | Player
  | Single
deriving DecidableEq, Repr

/-- SharedState from gui.rs: the card index pending in the hand (if any) and
the enemy id of the current combat stage. -/
structure SharedState where
  card_idx : Option Int
  enemy_id : EntityId

/-- Combat state from gui.rs. -/
structure Combat where
  shared_state : SharedState

/-- TargetSelect state from gui.rs. -/
structure TargetSelect where
  shared_state : SharedState
  target_type : Target
  targets : List EntityId

/-- TargetSelectComplete state from gui.rs: the only workflow state carrying a
selected target. -/
structure TargetSelectComplete where
  shared_state : SharedState
  target : EntityId

/-- The generic typestate wrapper from gui.rs. -/
structure GuiStateMachine (T : Type) where
  state : T

/-- Modelled from the spec: the one-argument Combat constructor called by
main.rs (GuiStateMachine::<Combat>::new(enemy_id)); its definition lives in a
draft of gui.rs that is not under src (the gui.rs under src has a two-argument
constructor taking the card index explicitly).  Per the spec, cancelling
returns to Combat with no pending card index, so the constructor stores none
for card_idx. -/
def GuiStateMachine.combatNewDefault (enemy_id : EntityId) : GuiStateMachine Combat :=
  { state := { shared_state := { card_idx := none, enemy_id := enemy_id } } }

/-- The GuiState enumeration from main.rs wrapping the three machine states. -/
inductive GuiState where
  | Combat (m : GuiStateMachine Tunnelcast.Combat)
  | TargetSelect (m : GuiStateMachine Tunnelcast.TargetSelect)
  | TargetSelectComplete (m : GuiStateMachine Tunnelcast.TargetSelectComplete)

/-- The Game struct from main.rs.  The draft of GameState used by main.rs
stores the enemy id on the game state itself; the engine.rs under src has no
such field, so it is carried here alongside. -/
structure Game where
  game_state : GameState
  enemy : Option EntityId
  gui_state : GuiState

/-- The cancel arm of Game::handle_keyboard_input from main.rs: in the
TargetSelect gui state, the q key resets the gui to a fresh Combat machine
built from the enemy id (Option::unwrap on a missing enemy panics, embedded
as none) and touches nothing else; in particular game_state, and with it the
pending action, is left unchanged, so no action is emitted.  For gui states
other than TargetSelect this model leaves the game unchanged (in the source
the q key matches no arm of the Combat state because the numeric guard
rejects it; the TargetSelectComplete arm is outside the scope of the claims
settled here). -/
def cancel_target_select (game : Game) : Option Game :=
  match game.gui_state with
  | GuiState.TargetSelect _ =>
    match game.enemy with
    | none => none
    | some e =>
      some { game with gui_state := GuiState.Combat (GuiStateMachine.combatNewDefault e) }
  | _ => some game

/-
  Concrete fixtures used by the witness theorems below.  They mirror the game
  set up by Game::init_state in main.rs and the tests of engine.rs: a catalog
  holding the Shields and Phasers cards and entities created with Hull 10 and
  Shields 10.
-/

/-- The identity permutation, used to instantiate the external shuffle in
concrete witnesses (a permutation function like any other). -/
def idShuffle (l : List CardId) : List CardId := l

/-- The Shields card from engine.rs and main.rs. -/
def shieldsCard : Card :=
  { id := CardId.Shields, name := "Shields", effects := [Effect.IncreaseShields] }

/-- The Phasers card from engine.rs and main.rs. -/
def phasersCard : Card :=
  { id := CardId.Phasers, name := "Phasers", effects := [Effect.DamageHull] }

/-- The catalog built by Game::init_state. -/
def demoCards : CardCollection :=
  ⟨fun cid =>
    match cid with
    | CardId.Shields => some shieldsCard
    | CardId.Phasers => some phasersCard⟩

/-- An entity with Hull 10 and Shields 10, as created by Game::init_state. -/
def ent10 : Entity :=
  ⟨(State.empty.insert Attribute.Hull 10).insert Attribute.Shields 10⟩

/-- The multiset of all CardIds across the draw pile, the hand and the discard
pile of a game state. -/
def pileCards (g : GameState) : Multiset CardId :=
  (g.draw : Multiset CardId) + (g.hand : Multiset CardId) + (g.discard : Multiset CardId)

/-- The one-to-one correspondence between the live entity list and the entity
map: no id is listed twice, and an id is listed exactly when the map holds an
entity for it. -/
def registry_wf (g : GameState) : Prop :=
  g.entities.Nodup ∧ ∀ id : EntityId, id ∈ g.entities ↔ (g.entity_state id).isSome

/-- Game used by the C1 witness: one Shields card in hand, entity 1 live with
Hull 10 and Shields 10, pending PlayCard(1, 0). -/
def gC1 : GameState :=
  { cards := demoCards, draw := [], hand := [CardId.Shields], discard := [],
    action := Action.PlayCard 1 0, entities := [1],
    entity_state := fun e => if e = 1 then some ent10 else none }

/-- Game used by the C2 witness: pending Draw with one card in each pile. -/
def gW2 : GameState :=
  { cards := demoCards, draw := [CardId.Phasers], hand := [CardId.Shields],
    discard := [CardId.Shields], action := Action.Draw, entities := [],
    entity_state := fun _ => none }

/-- The state gW2 reaches after its Draw tick. -/
def gW2' : GameState :=
  { gW2 with draw := [], hand := [CardId.Shields, CardId.Phasers] }

/-- Game used by the C3 witness: empty draw pile, three cards in the discard
pile, pending Draw (the scenario of the claim). -/
def gW3 : GameState :=
  { cards := demoCards, draw := [],
    hand := [], discard := [CardId.Shields, CardId.Phasers, CardId.Shields],
    action := Action.Draw, entities := [], entity_state := fun _ => none }

/-- Game used for C4: empty draw pile, a card in the discard pile, pending
BeginTurn. -/
def gC4 : GameState :=
  { cards := demoCards, draw := [], hand := [], discard := [CardId.Shields],
    action := Action.BeginTurn, entities := [], entity_state := fun _ => none }

/-- Game used by the C5 witness: entity 7 live with Hull 1. -/
def gC5 : GameState :=
  { cards := demoCards, draw := [], hand := [], discard := [],
    action := Action.None, entities := [7],
    entity_state := fun e =>
      if e = 7 then some ⟨State.empty.insert Attribute.Hull 1⟩ else none }

/-- The delta of the C5 witness: Hull minus 1 (the output of DamageHull). -/
def dC5 : State := State.empty.insert Attribute.Hull (-1)

/-- The state produced by applying dC5 to entity 7 of gC5. -/
def gC5' : GameState :=
  { gC5 with
    entities := gC5.entities.erase 7,
    entity_state := fun e =>
      if e = 7 then none
      else if e = 7 then
        some { state := (Entity.state ⟨State.empty.insert Attribute.Hull 1⟩).addDelta dC5 }
      else gC5.entity_state e }

/-- Game used for C6: entity 3 live with a state holding only Shields — no
Hull key. -/
def gC6 : GameState :=
  { cards := demoCards, draw := [], hand := [], discard := [],
    action := Action.None, entities := [3],
    entity_state := fun e =>
      if e = 3 then some ⟨State.empty.insert Attribute.Shields 10⟩ else none }

/-- The delta used for C6: Shields plus 1 (the output of IncreaseShields);
it leaves the Hull key absent. -/
def dC6 : State := State.empty.insert Attribute.Shields 1

/-- Game used for C7: empty hand with pending PlayCard(1, 0). -/
def gC7 : GameState :=
  { cards := demoCards, draw := [], hand := [], discard := [],
    action := Action.PlayCard 1 0, entities := [1],
    entity_state := fun e => if e = 1 then some ent10 else none }

/-- Game used by the C7 witness: one card in hand with pending
PlayCard(1, 5). -/
def gW7 : GameState :=
  { gC7 with hand := [CardId.Shields], action := Action.PlayCard 1 5 }

/-- Game (in the sense of main.rs) used by the C8 witness: a TargetSelect
machine with a pending card index, enemy id 2. -/
def gameW8 : Game :=
  { game_state := gC7,
    enemy := some 2,
    gui_state := GuiState.TargetSelect
      { state := { shared_state := { card_idx := some 2, enemy_id := 2 },
                   target_type := Target.Single, targets := [2] } } }

/-- An entity with Hull 10, used by the C9 fixtures. -/
def entA : Entity := ⟨State.empty.insert Attribute.Hull 10⟩

/-- Game used for C9: entity 5 is live (listed once and present in the
map). -/
def gC9 : GameState :=
  { cards := demoCards, draw := [], hand := [], discard := [],
    action := Action.None, entities := [5],
    entity_state := fun e => if e = 5 then some entA else none }

/-- The state produced by removing entity 5 from gC9. -/
def gC9' : GameState :=
  { gC9 with
    entities := gC9.entities.erase 5,
    entity_state := fun e => if e = 5 then none else gC9.entity_state e }

/-
  Shared helper lemmas.
-/

/-- A list with a last element decomposes as its dropLast part followed by
that element. -/
theorem getLast?_decomp {α : Type} (l : List α) (c : α) (h : l.getLast? = some c) :
    l = l.dropLast ++ [c] := by
  rcases List.eq_nil_or_concat l with rfl | ⟨l', a, rfl⟩
  · simp at h
  · rw [List.concat_eq_append] at *
    rw [List.getLast?_concat] at h
    cases h
    rw [List.dropLast_concat]

/-- Erasing the element at a valid index and putting it back yields the same
multiset of elements. -/
theorem eraseIdx_multiset {α : Type} (l : List α) (i : Nat) (h : i < l.length) :
    (l.eraseIdx i : Multiset α) + {l.get ⟨i, h⟩} = (l : Multiset α) := by
  have hd : l.get ⟨i, h⟩ = l[i] := rfl
  rw [List.eraseIdx_eq_take_drop_succ, hd]
  conv_rhs => rw [← List.take_append_drop i l, List.drop_eq_getElem_cons h]
  have hsingle : ({l[i]} : Multiset α) = Multiset.ofList [l[i]] := rfl
  rw [hsingle, Multiset.coe_add]
  refine Multiset.coe_eq_coe.mpr ?_
  rw [List.append_assoc]
  exact (List.perm_append_singleton l[i] (List.drop (i + 1) l)).append_left (List.take i l)

section Claims

/-- C1: for every game state whose hand index is in bounds, whose card at that
index is in the catalog, whose target is a live entity and whose merged delta
leaves a positive Hull on the target (so that no removal and no panic
follows), a tick with pending PlayCard removes the card from that hand
position, appends it at the tail of the discard pile and updates the target
with exactly one accumulated delta: the effects of the card are folded in
declaration order against g itself, the snapshot taken before the move, their
outputs summed per attribute key with absent keys read as 0, and this single
delta is applied to the state the target had before the tick, after the card
has been moved — no effect ever observes the output of another. -/
theorem play_card_merged_delta
    (shuffle : List CardId → List CardId) (g : GameState)
    (target : EntityId) (card_idx : Int) (card : Card) (ent : Entity) (hull : Int)
    (hact : g.action = Action.PlayCard target card_idx)
    (hidx : castUsize card_idx < g.hand.length)
    (hcard : g.cards.get (g.hand.get ⟨castUsize card_idx, hidx⟩) = some card)
    (htgt : g.entity_state target = some ent)
    (hhull : ent.state.addDelta
        (card.effects.foldl (fun acc fx => acc.addDelta (fx.calculate g target)) State.empty)
        Attribute.Hull = some hull)
    (hpos : 0 < hull) :
    tick shuffle g = some { g with
      hand := g.hand.eraseIdx (castUsize card_idx),
      discard := g.discard ++ [g.hand.get ⟨castUsize card_idx, hidx⟩],
      entity_state := fun e =>
        if e = target then
          some { state :=
                  ent.state.addDelta (card.effects.foldl
                    (fun acc fx => acc.addDelta (fx.calculate g target)) State.empty) }
        else g.entity_state e } := by
  have hget : g.hand.get? (castUsize card_idx) =
      some (g.hand.get ⟨castUsize card_idx, hidx⟩) := List.get?_eq_get hidx
  simp only [tick, hact, hget, hcard, GameState.apply_effect, htgt, hhull]
  rw [if_neg (not_le.mpr hpos)]

/-- The hand index 0 is in bounds for gC1. -/
theorem gC1_idx : castUsize 0 < gC1.hand.length := by decide

/-- Witness for the C1 theorem: playing the Shields card of gC1 on entity 1
empties the hand, puts the card at the tail of the discard pile and applies
the one merged delta to entity 1. -/
theorem play_card_merged_delta_witness :
    tick idShuffle gC1 = some { gC1 with
      hand := gC1.hand.eraseIdx (castUsize 0),
      discard := gC1.discard ++ [gC1.hand.get ⟨castUsize 0, gC1_idx⟩],
      entity_state := fun e =>
        if e = 1 then
          some { state :=
                  ent10.state.addDelta (shieldsCard.effects.foldl
                    (fun acc fx => acc.addDelta (fx.calculate gC1 1)) State.empty) }
        else gC1.entity_state e } :=
  play_card_merged_delta idShuffle gC1 1 0 shieldsCard ent10 10
    rfl gC1_idx rfl rfl rfl (by decide)

/-- apply_effect never touches the piles: when it completes, draw, hand and
discard (and the catalog and pending action) are those of the input state. -/
theorem apply_effect_piles {g g' : GameState} {sc : StateChange}
    (h : g.apply_effect sc = some g') :
    g'.draw = g.draw ∧ g'.hand = g.hand ∧ g'.discard = g.discard := by
  simp only [GameState.apply_effect] at h
  split at h
  · cases h
  · split at h
    · cases h
    · split at h
      · simp only [GameState.remove_entity] at h
        split at h
        · cases Option.some.inj h
          exact ⟨rfl, rfl, rfl⟩
        · cases h
      · cases Option.some.inj h
        exact ⟨rfl, rfl, rfl⟩

/-- Popping the last card of the draw pile into the hand conserves the pile
multiset. -/
theorem pileCards_pop (g : GameState) (c : CardId) (h : g.draw.getLast? = some c) :
    pileCards { g with draw := g.draw.dropLast, hand := g.hand ++ [c] } = pileCards g := by
  simp only [pileCards]
  conv_rhs => rw [getLast?_decomp g.draw c h]
  simp only [← Multiset.coe_add]
  abel

/-- draw_hand conserves the pile multiset. -/
theorem pileCards_draw_hand (n : Nat) (g : GameState) :
    pileCards (draw_hand g n) = pileCards g := by
  induction n generalizing g with
  | zero => rfl
  | succ n ih =>
    rw [draw_hand]
    cases hL : g.draw.getLast? with
    | none => exact ih g
    | some c => exact (ih _).trans (pileCards_pop g c hL)

/-- discard_hand conserves the pile multiset. -/
theorem pileCards_discard_hand (g : GameState) :
    pileCards (discard_hand g) = pileCards g := by
  simp only [pileCards, discard_hand]
  simp only [← Multiset.coe_add, Multiset.coe_nil]
  abel

/-- drawOne conserves the pile multiset, for any multiset-preserving shuffle. -/
theorem pileCards_drawOne (shuffle : List CardId → List CardId) (g : GameState)
    (hsh : ∀ l : List CardId, ((shuffle l : List CardId) : Multiset CardId) = (l : Multiset CardId)) :
    pileCards (drawOne shuffle g) = pileCards g := by
  rw [drawOne]
  have hg1 : pileCards (if g.draw.length = 0 then
      { g with draw := g.draw ++ shuffle g.discard, discard := [] } else g) = pileCards g := by
    split
    · simp only [pileCards, ← Multiset.coe_add, Multiset.coe_nil, hsh]
      abel
    · rfl
  set g1 := if g.draw.length = 0 then
    { g with draw := g.draw ++ shuffle g.discard, discard := [] } else g with hg1def
  cases hL : g1.draw.getLast? with
  | none => exact hg1
  | some c => exact (pileCards_pop g1 c hL).trans hg1

/-- C2: every pile operation conserves the multiset union of the draw pile,
the hand and the discard pile: no CardId is created or destroyed by a tick
(whatever the pending action), by draw_hand (drawMany) or by discard_hand;
the external shuffle is assumed to permute its input. -/
theorem pile_conservation
    (shuffle : List CardId → List CardId) (g s' : GameState) (n : Nat)
    (hsh : ∀ l : List CardId, ((shuffle l : List CardId) : Multiset CardId) = (l : Multiset CardId))
    (htick : tick shuffle g = some s') :
    pileCards s' = pileCards g
    ∧ pileCards (draw_hand g n) = pileCards g
    ∧ pileCards (discard_hand g) = pileCards g := by
  refine ⟨?_, pileCards_draw_hand n g, pileCards_discard_hand g⟩
  rw [tick] at htick
  split at htick
  · cases Option.some.inj htick; rfl
  · cases Option.some.inj htick
    exact pileCards_drawOne shuffle g hsh
  · rename_i target card_idx heq
    split at htick
    · cases htick
    · rename_i card_id hget
      split at htick
      · cases htick
      · rename_i card hcard
        obtain ⟨hlt, hgetval⟩ := List.get?_eq_some.mp hget
        obtain ⟨hd, hh, hdisc⟩ := apply_effect_piles htick
        simp only [pileCards, hd, hh, hdisc]
        have herase := eraseIdx_multiset g.hand (castUsize card_idx) hlt
        rw [hgetval] at herase
        rw [← herase]
        simp only [← Multiset.coe_add]
        abel
  · cases Option.some.inj htick
    exact pileCards_draw_hand 4 g
  · cases Option.some.inj htick
    exact pileCards_discard_hand g

/-- Witness for the C2 theorem at a concrete input. -/
theorem pile_conservation_witness :
    pileCards gW2' = pileCards gW2
    ∧ pileCards (draw_hand gW2 1) = pileCards gW2
    ∧ pileCards (discard_hand gW2) = pileCards gW2 :=
  pile_conservation idShuffle gW2 gW2' 1 (fun _ => rfl) rfl

/-- C3: the exact behavior of a Draw tick (the drawOne operation), for every
multiset-preserving shuffle.  When both piles are empty the tick is a no-op
and reports no error; when the draw pile is empty and the (shuffled) discard
pile is not, the whole shuffled discard pile becomes the draw pile, the
discard pile is left empty and the last card of the shuffled pile is popped
into the hand, so the new draw pile plus the drawn card is exactly the old
discard pile as a multiset; when the draw pile is non-empty its last card is
popped into the hand. -/
theorem draw_one_semantics
    (shuffle : List CardId → List CardId) (g : GameState)
    (hact : g.action = Action.Draw)
    (hsh : ∀ l : List CardId, ((shuffle l : List CardId) : Multiset CardId) = (l : Multiset CardId)) :
    (g.draw = [] → g.discard = [] → tick shuffle g = some g)
    ∧ (∀ _h1 : g.draw = [], ∀ h2 : shuffle g.discard ≠ [],
        tick shuffle g = some { g with
          draw := (shuffle g.discard).dropLast,
          discard := [],
          hand := g.hand ++ [(shuffle g.discard).getLast h2] }
        ∧ ((shuffle g.discard).dropLast : Multiset CardId)
            + {(shuffle g.discard).getLast h2} = (g.discard : Multiset CardId))
    ∧ (∀ h : g.draw ≠ [],
        tick shuffle g = some { g with
          draw := g.draw.dropLast, hand := g.hand ++ [g.draw.getLast h] }) := by
  refine ⟨?_, ?_, ?_⟩
  · intro h1 h2
    have hnil : shuffle g.discard = [] := by
      rw [h2]
      have hz := hsh ([] : List CardId)
      rwa [Multiset.coe_nil, Multiset.coe_eq_zero] at hz
    simp only [tick, hact, drawOne, h1, hnil, List.append_nil, List.length_nil, if_pos,
      List.getLast?_nil, Option.some.injEq]
    exact GameState.ext rfl h1.symm rfl h2.symm hact.symm rfl rfl
  · intro h1 h2
    have hlast : (shuffle g.discard).getLast? = some ((shuffle g.discard).getLast h2) :=
      List.getLast?_eq_getLast _ h2
    refine ⟨?_, ?_⟩
    · simp only [tick, hact, drawOne, h1, List.length_nil, List.nil_append, if_pos, hlast]
    · have hdec := getLast?_decomp _ _ hlast
      have hone : ({(shuffle g.discard).getLast h2} : Multiset CardId)
          = Multiset.ofList [(shuffle g.discard).getLast h2] := rfl
      rw [hone, Multiset.coe_add, ← hdec]
      exact hsh g.discard
  · intro h
    have hcond : ¬ g.draw.length = 0 := by
      simpa [List.length_eq_zero] using h
    simp only [tick, hact, drawOne, if_neg hcond, List.getLast?_eq_getLast _ h]

/-- The shuffled discard pile of gW3 under the identity permutation is
non-empty. -/
theorem gW3_ne : idShuffle gW3.discard ≠ [] := by decide

/-- Witness for the C3 theorem: one Draw on gW3 reshuffles the discard pile
into the draw pile, pops a card into the hand and leaves the discard pile
empty. -/
theorem draw_one_semantics_witness :
    tick idShuffle gW3 = some { gW3 with
      draw := (idShuffle gW3.discard).dropLast,
      discard := [],
      hand := gW3.hand ++ [(idShuffle gW3.discard).getLast gW3_ne] }
    ∧ ((idShuffle gW3.discard).dropLast : Multiset CardId)
        + {(idShuffle gW3.discard).getLast gW3_ne} = (gW3.discard : Multiset CardId) :=
  (draw_one_semantics idShuffle gW3 rfl (fun _ => rfl)).2.1 rfl gW3_ne

/-- C4 counterexample: on gC4 (empty draw pile, non-empty discard pile),
draw_hand with count 4 — the drawMany the BeginTurn tick performs — is not
four successive drawOne operations: the iterated drawOne reshuffles the
discard pile and draws a card while draw_hand draws nothing, and the
BeginTurn tick leaves the state completely unchanged (discard still
non-empty) instead of reshuffling. -/
theorem draw_many_counterexample :
    draw_hand gC4 4
      ≠ drawOne idShuffle (drawOne idShuffle (drawOne idShuffle (drawOne idShuffle gC4)))
    ∧ tick idShuffle gC4 = some gC4 := by
  constructor
  · intro h
    exact absurd (congrArg GameState.hand h) (by decide)
  · rfl

/-- C4 amended: drawMany(g, n) only ever pops (up to) n cards off the tail of
the draw pile into the hand; the discard pile — and everything else except
draw and hand — is untouched, and in particular no reshuffle happens, so a
BeginTurn tick with an empty draw pile draws nothing even when the discard
pile is non-empty. -/
theorem draw_many_only_pops (g : GameState) (n : Nat) :
    (draw_hand g n).draw = g.draw.take (g.draw.length - n)
    ∧ (draw_hand g n).hand = g.hand ++ (g.draw.drop (g.draw.length - n)).reverse
    ∧ (draw_hand g n).discard = g.discard
    ∧ (draw_hand g n).cards = g.cards
    ∧ (draw_hand g n).action = g.action
    ∧ (draw_hand g n).entities = g.entities
    ∧ (draw_hand g n).entity_state = g.entity_state := by
  induction n generalizing g with
  | zero =>
    refine ⟨?_, ?_, rfl, rfl, rfl, rfl, rfl⟩
    · rw [Nat.sub_zero, List.take_length]
      rfl
    · rw [Nat.sub_zero, List.drop_length, List.reverse_nil, List.append_nil]
      rfl
  | succ n ih =>
    simp only [draw_hand]
    cases hL : g.draw.getLast? with
    | none =>
      have hnil : g.draw = [] := by
        rwa [List.getLast?_eq_none_iff] at hL
      obtain ⟨h1, h2, h3, h4, h5, h6, h7⟩ := ih g
      refine ⟨?_, ?_, h3, h4, h5, h6, h7⟩
      · rw [h1, hnil]
        simp
      · rw [h2, hnil]
        simp
    | some c =>
      have hdec := getLast?_decomp g.draw c hL
      obtain ⟨h1, h2, h3, h4, h5, h6, h7⟩ :=
        ih { g with draw := g.draw.dropLast, hand := g.hand ++ [c] }
      generalize hgen : g.draw.dropLast = d at h1 h2 h3 h4 h5 h6 h7 hdec ⊢
      rw [hdec]
      have hlen : (d ++ [c]).length - (n + 1) = d.length - n := by
        simp [List.length_append]
      have hle : d.length - n ≤ d.length := Nat.sub_le _ _
      refine ⟨?_, ?_, h3, h4, h5, h6, h7⟩
      · rw [h1, hlen, List.take_append_of_le_length hle]
      · rw [h2, hlen, List.drop_append_of_le_length hle]
        simp [List.reverse_append]

/-- C5: when a delta application leaves the target with Hull at most 0 and
the target is live (present in the entity map and exactly once in the live
list), the application completes, and once complete the target id is absent
from both the live list and the entity map — removed, not marked — and every
subsequent delta application against that id fails on the lookup (the
LookupFailure of the spec, a panic in the source). -/
theorem hull_removal
    (g : GameState) (target : EntityId) (ent : Entity) (delta : State) (hull : Int)
    (htgt : g.entity_state target = some ent)
    (hcount : g.entities.count target = 1)
    (hhull : ent.state.addDelta delta Attribute.Hull = some hull)
    (hle : hull ≤ 0) :
    (g.apply_effect (target, delta)).isSome = true
    ∧ ∀ g', g.apply_effect (target, delta) = some g' →
        target ∉ g'.entities
        ∧ g'.entity_state target = none
        ∧ ∀ delta2 : State, g'.apply_effect (target, delta2) = none := by
  have hmem : target ∈ g.entities :=
    List.count_pos_iff.mp (by rw [hcount]; exact Nat.one_pos)
  have happ : g.apply_effect (target, delta) = some
      { g with
        entities := g.entities.erase target,
        entity_state := fun e =>
          if e = target then none
          else if e = target then some { state := ent.state.addDelta delta }
          else g.entity_state e } := by
    simp only [GameState.apply_effect, htgt, hhull, GameState.remove_entity,
      if_pos hle, if_pos hmem]
  refine ⟨?_, ?_⟩
  · rw [happ]
    rfl
  · intro g' hg'
    rw [happ] at hg'
    cases Option.some.inj hg'
    refine ⟨?_, ?_, ?_⟩
    · rw [← List.count_eq_zero, List.count_erase_self, hcount]
    · simp
    · intro delta2
      simp [GameState.apply_effect]

/-- Witness for the C5 theorem: after the delta drops Hull of entity 7 to 0,
the entity is gone from the live list and the map and a second application
against it fails. -/
theorem hull_removal_witness :
    (7 : EntityId) ∉ gC5'.entities
    ∧ gC5'.entity_state 7 = none
    ∧ gC5'.apply_effect (7, dC5) = none := by
  have h := (hull_removal gC5 7 ⟨State.empty.insert Attribute.Hull 1⟩ dC5 0
    rfl rfl rfl (by decide)).2 gC5' rfl
  exact ⟨h.1, h.2.1, h.2.2 dC5⟩

/-- C6: the failing input of the code bug.  Applying a Shields delta to a
live entity whose state has no Hull key makes apply_effect unwrap the absent
Hull entry and panic (none), instead of completing normally with the target
still live as the spec states: the source checks the Hull threshold with an
unconditional unwrap rather than treating an absent Hull as no removal. -/
theorem hull_absent_panics : gC6.apply_effect (3, dC6) = none := rfl

/-- C7 counterexample: with an empty hand, a tick with pending PlayCard(1, 0)
hits the out-of-bounds hand index and aborts (the slice-index panic of the
source, embedded as none).  tick has no error channel at all — its result
type carries either the new state or the abort — so no typed, recoverable
InvalidIndex value is ever reported, refuting the claim. -/
theorem invalid_index_counterexample : tick idShuffle gC7 = none := rfl

/-- C7 amended: for every game state with a pending PlayCard whose hand index
is out of bounds (after the usize cast of the source), the tick aborts with
the index panic — no typed InvalidIndex result exists in the core. -/
theorem invalid_index_aborts
    (shuffle : List CardId → List CardId) (g : GameState)
    (target : EntityId) (card_idx : Int)
    (hact : g.action = Action.PlayCard target card_idx)
    (hoob : g.hand.length ≤ castUsize card_idx) :
    tick shuffle g = none := by
  have hget : g.hand.get? (castUsize card_idx) = none := List.get?_eq_none.mpr hoob
  rw [List.get?_eq_getElem?] at hget
  simp [tick, hact, hget]

/-- Witness for the amended C7 theorem at a concrete input: index 5 into a
one-card hand aborts the tick. -/
theorem invalid_index_aborts_witness : tick idShuffle gW7 = none :=
  invalid_index_aborts idShuffle gW7 1 5 rfl (by decide)

/-- C8: from every TargetSelect workflow state (and a present enemy id, whose
unwrap would otherwise panic), the cancel input produces a Combat state whose
pending card index is none, and emits no action: the game state — in
particular the pending action — is left exactly as it was. -/
theorem cancel_target_select_semantics
    (game : Game) (m : GuiStateMachine TargetSelect) (e : EntityId)
    (hgui : game.gui_state = GuiState.TargetSelect m)
    (henemy : game.enemy = some e) :
    cancel_target_select game =
      some { game with gui_state := GuiState.Combat (GuiStateMachine.combatNewDefault e) }
    ∧ (GuiStateMachine.combatNewDefault e).state.shared_state.card_idx = none
    ∧ ∀ g', cancel_target_select game = some g' →
        g'.game_state = game.game_state
        ∧ g'.game_state.action = game.game_state.action := by
  have h1 : cancel_target_select game =
      some { game with gui_state := GuiState.Combat (GuiStateMachine.combatNewDefault e) } := by
    simp [cancel_target_select, hgui, henemy]
  refine ⟨h1, rfl, ?_⟩
  intro g' hg'
  rw [h1] at hg'
  cases Option.some.inj hg'
  exact ⟨rfl, rfl⟩

/-- Witness for the C8 theorem at a concrete input: cancelling the
TargetSelect machine of gameW8 (pending card index 2) yields a Combat machine
with no pending card index and an unchanged pending action. -/
theorem cancel_target_select_witness :
    cancel_target_select gameW8 =
      some { gameW8 with gui_state := GuiState.Combat (GuiStateMachine.combatNewDefault 2) }
    ∧ (GuiStateMachine.combatNewDefault 2).state.shared_state.card_idx = none
    ∧ ({ gameW8 with
          gui_state := GuiState.Combat (GuiStateMachine.combatNewDefault 2) } : Game
        ).game_state.action = gameW8.game_state.action := by
  have h := cancel_target_select_semantics gameW8
    ⟨{ shared_state := { card_idx := some 2, enemy_id := 2 },
       target_type := Target.Single, targets := [2] }⟩ 2 rfl rfl
  exact ⟨h.1, h.2.1, (h.2.2 _ h.1).2⟩

/-- gC9 satisfies the registry correspondence. -/
theorem gC9_wf : registry_wf gC9 := by
  constructor
  · simp [gC9]
  · intro id
    by_cases h : id = 5 <;> simp [gC9, h]

/-- C9 counterexample: gen_id is an unchecked random u32, so the draw can
collide with a live id.  Registering into gC9 (entity 5 live) with the
possible random draw 5 assigns an id that is not distinct from the live ids,
and the resulting live list [5, 5] holds the id twice while the map holds it
once: the one-to-one correspondence is broken. -/
theorem register_unique_counterexample :
    registry_wf gC9
    ∧ (gC9.add_entity 5 entA).2 ∈ gC9.entities
    ∧ ¬ registry_wf (gC9.add_entity 5 entA).1 := by
  refine ⟨gC9_wf, by decide, ?_⟩
  intro hwf
  have hnd : ([5, 5] : List EntityId).Nodup := hwf.1
  simp at hnd

/-- C9 amended: add_entity returns the id handed to it by the random
generator, with no uniqueness guarantee; when that id happens not to be live,
registration preserves the one-to-one correspondence between the live list
and the entity map, and removal always preserves it. -/
theorem register_fresh_preserves_wf
    (g : GameState) (gen id : EntityId) (ent : Entity)
    (hwf : registry_wf g) (hfresh : g.entity_state gen = none) :
    (g.add_entity gen ent).2 = gen
    ∧ registry_wf (g.add_entity gen ent).1
    ∧ ∀ g', g.remove_entity id = some g' → registry_wf g' := by
  obtain ⟨hnd, hmemiff⟩ := hwf
  have hgen_not : gen ∉ g.entities := by
    intro hmem
    have hs := (hmemiff gen).mp hmem
    rw [hfresh] at hs
    simp at hs
  refine ⟨rfl, ⟨?_, ?_⟩, ?_⟩
  · simp [GameState.add_entity, List.nodup_append, hnd, hgen_not]
  · intro x
    simp only [GameState.add_entity, List.mem_append, List.mem_singleton]
    by_cases hx : x = gen
    · subst hx
      simp
    · simp [hx, hmemiff x]
  · intro g' hg'
    simp only [GameState.remove_entity] at hg'
    split at hg'
    · rename_i hmem
      cases Option.some.inj hg'
      constructor
      · exact hnd.erase id
      · intro x
        rw [hnd.mem_erase_iff]
        by_cases hx : x = id
        · subst hx
          simp
        · simp [hx, hmemiff x]
    · cases hg'

/-- Witness for the amended C9 theorem at a concrete input: registering the
fresh id 6 into gC9 keeps the correspondence, and removing entity 5 keeps
it too. -/
theorem register_fresh_preserves_wf_witness :
    (gC9.add_entity 6 entA).2 = 6
    ∧ registry_wf (gC9.add_entity 6 entA).1
    ∧ registry_wf gC9' := by
  have h := register_fresh_preserves_wf gC9 6 5 entA gC9_wf rfl
  exact ⟨h.1, h.2.1, h.2.2 gC9' rfl⟩

end Claims

end Tunnelcast
